import Mathlib

/-!
Shallow embedding, in Lean 4, of the crawl orchestration and deduplication
core of the `web_crawler` repository, together with proofs about it.

The embedding covers:
* `app/crawlers/data_processor.py` (`DataProcessor`): text cleaning,
  URL validation, extension extraction, hash-input normalization,
  tag processing and `build_dataset`;
* `app/services/crawler_service.py` (`CrawlerService`): the dataset-found
  callback, duplicate checking, batched saving with JSON fallback and
  test mode;
* `app/crawlers/base_crawler.py` / `static_crawler.py`: crawl statistics,
  the `should_continue` page-budget predicate and the spider's
  page-processing loop;
* `app/models/dataset.py` (`Dataset.find_by_hash`) and
  `app/api/v1/crawl.py` (`cancel_crawl_job`) together with
  `app/models/crawl_job.py` (`CrawlJob.cancel`).

Python strings are modelled as `List Char` / `String` (ASCII fragment:
`str.lower` maps `A`-`Z` to `a`-`z`, `str.strip` and the regex class `\s`
use the ASCII whitespace set), fallible calls return `Option`/sum types,
and the mutable service state is threaded explicitly.
-/

namespace Crawler

/-- ASCII model of Python's whitespace class `\s` (and of `str.strip`):
space (32), tab (9), newline (10), carriage return (13), vertical tab (11),
form feed (12). -/
def isSpace (c : Char) : Bool :=
  c.toNat == 32 || c.toNat == 9 || c.toNat == 10 ||
    c.toNat == 13 || c.toNat == 11 || c.toNat == 12

/-- Python `str.lower`, ASCII fragment, character by character
(core `Char.toLower` maps exactly `A`-`Z` to `a`-`z`). -/
def pyLowerChar (c : Char) : Char := c.toLower

/-- Python `str.lower` on a character list. -/
def pyLower (l : List Char) : List Char := l.map pyLowerChar

/-- Python `str.strip()`: drop leading and trailing whitespace. -/
def pyStrip (l : List Char) : List Char :=
  (l.dropWhile isSpace).rdropWhile isSpace

/-- Helper for `collapseWS`: the flag records whether the previous
character was part of a whitespace run already replaced by a space. -/
def collapseAux : Bool → List Char → List Char
  | _, [] => []
  | inRun, c :: rest =>
    if isSpace c then
      if inRun then collapseAux true rest
      else ' ' :: collapseAux true rest
    else c :: collapseAux false rest

/-- Model of `re.sub(r'\s+', ' ', text)`: replace every maximal run of
whitespace characters by a single space. -/
def collapseWS (l : List Char) : List Char := collapseAux false l

/-- Model of `.replace('\n', ' ').replace('\r', ' ').replace('\t', ' ')`,
character by character. -/
def replaceNRT (c : Char) : Char :=
  if c == '\n' || c == '\r' || c == '\t' then ' ' else c

/-- List-level core of `DataProcessor.clean_text` applied to a non-empty
string: `re.sub` of `\s+` by a space on the stripped text, then the
newline/carriage-return/tab replacements. -/
def cleanList (l : List Char) : List Char :=
  (collapseWS (pyStrip l)).map replaceNRT

/-- Embedding of `DataProcessor.clean_text` (`data_processor.py`).
`none` stands for Python `None`; the input `some ""` is falsy in Python
(`if not text: return None`), and the final `return text if text else None`
maps an empty result back to `None`. -/
def clean_text : Option String → Option String
  | none => none
  | some s =>
    if s.data = [] then none
    else
      let t := cleanList s.data
      if t = [] then none else some (String.mk t)

-- scratch checks against CPython behaviour
example : clean_text (some "  a  b ") = some "a b" := by decide
example : clean_text (some " \t \n ") = none := by decide
example : clean_text (some "a\nb") = some "a b" := by decide
example : clean_text none = none := by decide
example : clean_text (some "") = none := by decide

/-! URL parsing: a model of the fragment of `urllib.parse.urlparse` that
`DataProcessor` relies on (scheme, netloc, path, query of absolute URLs;
the fragment part is split off first). -/

/-- Split a list at the first occurrence of `sep`: returns the part before
and, when `sep` occurs, the part after it. -/
def splitFirst (sep : Char) : List Char → List Char × Option (List Char)
  | [] => ([], none)
  | c :: rest =>
    if c == sep then ([], some rest)
    else
      let p := splitFirst sep rest
      (c :: p.1, p.2)

/-- Scan for the first `"://"`; when found, return the characters before it
(the scheme) and the characters after it. -/
def splitScheme : List Char → Option (List Char × List Char)
  | [] => none
  | ':' :: '/' :: '/' :: rest => some ([], rest)
  | c :: rest => (splitScheme rest).map (fun p => (c :: p.1, p.2))

/-- Result of `urlparse`: the components used by the crawler. -/
structure UrlParts where
  scheme : List Char
  netloc : List Char
  path : List Char
  query : List Char
deriving DecidableEq, Repr

/-- Model of `urllib.parse.urlparse` for the URL shapes the crawler
handles: `scheme://netloc/path?query#fragment`, or a scheme-less
`path?query#fragment`. -/
def urlparse (url : String) : UrlParts :=
  let noFrag := (splitFirst '#' url.data).1
  match splitScheme noFrag with
  | some (scheme, rest) =>
    let netloc := rest.takeWhile (fun c => !(c == '/') && !(c == '?'))
    let tail := rest.dropWhile (fun c => !(c == '/') && !(c == '?'))
    let pq := splitFirst '?' tail
    { scheme := scheme, netloc := netloc, path := pq.1, query := pq.2.getD [] }
  | none =>
    let pq := splitFirst '?' noFrag
    { scheme := [], netloc := [], path := pq.1, query := pq.2.getD [] }

/-- Embedding of `DataProcessor.validate_url`: `if not url: return False`,
then truthiness of `parsed.scheme and parsed.netloc`. -/
def validate_url : Option String → Bool
  | none => false
  | some u =>
    if u.data = [] then false
    else
      let parsed := urlparse u
      !parsed.scheme.isEmpty && !parsed.netloc.isEmpty

/-- Embedding of `DataProcessor.validate_title`: falsy titles are invalid,
otherwise the cleaned title must have length at least 3. -/
def validate_title : Option String → Bool
  | none => false
  | some t =>
    if t.data = [] then false
    else
      match clean_text (some t) with
      | none => false
      | some cleaned => decide (3 ≤ cleaned.length)

/-- The allow-list of `DataProcessor.extract_extension`. -/
def valid_extensions : List (List Char) :=
  ["csv".data, "json".data, "xml".data, "xlsx".data, "xls".data, "pdf".data,
   "zip".data, "txt".data, "geojson".data, "shp".data, "kml".data, "tsv".data]

/-- Python `\w` (ASCII fragment): letters, digits, underscore. -/
def isWordChar (c : Char) : Bool := c.isAlphanum || c == '_'

/-- Model of `re.search(r'format=(\w+)', s)`: find the leftmost position
where the literal `format=` is followed by at least one word character and
return that maximal word-character run. -/
def findFormat : List Char → Option (List Char)
  | [] => none
  | c :: rest =>
    if c == 'f' && "ormat=".data.isPrefixOf rest then
      let tok := (rest.drop 6).takeWhile isWordChar
      if tok.isEmpty then findFormat rest else some tok
    else findFormat rest

/-- Substring containment on character lists. -/
def containsSub (pat : List Char) : List Char → Bool
  | [] => pat.isEmpty
  | c :: rest => pat.isPrefixOf (c :: rest) || containsSub pat rest

/-- Model of Python's substring test `'format=' in s`. -/
def containsFormat (l : List Char) : Bool :=
  containsSub ("format=".data) l

/-- Python `str.split(sep)` keeps every (possibly empty) piece; the code
takes the last one (`path.split('.')[-1]`). -/
def lastSegmentAfterDot (path : List Char) : List Char :=
  (path.splitOn '.').getLastD []

/-- Embedding of `DataProcessor.extract_extension`: trailing dot-segment of
the URL path, lower-cased, checked against the allow-list; else fall back
to the `format=` query parameter scan over the lower-cased full URL. -/
def extract_extension (url : String) : Option String :=
  let parsed := urlparse url
  let path := parsed.path
  let fromFormat : Option String :=
    if containsFormat (pyLower url.data) then
      match findFormat (pyLower url.data) with
      | some tok => some (String.mk tok)
      | none => none
    else none
  if path.contains '.' then
    let extension := pyLower (lastSegmentAfterDot path)
    if valid_extensions.contains extension then some (String.mk extension)
    else fromFormat
  else fromFormat

-- scratch checks against CPython behaviour
example : urlparse "http://x.test/d.csv?format=xlsx" =
    { scheme := "http".data, netloc := "x.test".data, path := "/d.csv".data,
      query := "format=xlsx".data } := by decide
example : extract_extension "http://example.com/data.CSV" = some "csv" := by decide
example : extract_extension "http://example.com/page.html" = none := by decide

/-- Embedding of `DataProcessor.generate_hash`: the SHA-256 of
`url.lower().strip()`. The hash primitive (`hashlib.sha256(...).hexdigest()`)
is a library function outside the repository, so it is passed in as an
arbitrary function `sha` of the digested text. -/
def generate_hash (sha : String → String) (url : String) : String :=
  sha (String.mk (pyStrip (pyLower url.data)))

/-- Embedding of `DataProcessor.generate_content_hash`: the SHA-256 of
`"{title}|{description}|{sorted_tags}"` after Python's normalizations. -/
def generate_content_hash (sha : String → String) (title : Option String)
    (description : Option String) (tags : List String) : String :=
  let t := pyStrip (pyLower (title.getD "").data)
  let d := pyStrip (pyLower (description.getD "").data)
  let sorted := (tags.mergeSort (fun a b => decide (a ≤ b))).intersperse ","
  let tagsStr := pyLower (String.join sorted).data
  sha (String.mk (t ++ "|".data ++ d ++ "|".data ++ tagsStr))

/-- Embedding of `DataProcessor.process_tags`: clean each tag, keep the
non-empty ones of length at most 50, lower-case them, then de-duplicate
preserving first-seen order. -/
def process_tags (tags : List String) : List String :=
  let processed := tags.filterMap (fun tag =>
    match clean_text (some tag) with
    | none => none
    | some cleaned =>
      if cleaned.length ≤ 50 then some (String.mk (pyLower cleaned.data))
      else none)
  processed.foldl (fun acc t => if acc.contains t then acc else acc ++ [t]) []

/-- The dictionary built by `DataProcessor.build_dataset`, one field per
key (note: there is no `url` key; the URL is stored in `file_references`).
The dict's `hash` key is the field `hashVal`. -/
structure PyDataset where
  title : String
  description : Option String
  extension : Option String
  original_file_name : String
  file_references : List String
  source : String
  tags : List String
  is_link : Bool
  is_private : Bool
  is_active : Bool
  is_deleted : Bool
  hashVal : String
  content_hash : String
  crawl_job_id : Option String
deriving DecidableEq, Repr

/-- Result of `DataProcessor.build_dataset`: either the dataset dict, or a
`raise ValueError(msg)` escaping the function, modelled by `raised`. -/
inductive BuildResult where
  | ok (d : PyDataset)
  | raised (msg : String)
deriving DecidableEq, Repr

/-- Embedding of `DataProcessor.build_dataset`. Cleans title/description,
strips the URL, processes tags, then validates: an invalid title raises
`ValueError` (before the URL is even looked at), an invalid URL raises
`ValueError`; otherwise the dataset dict is assembled. -/
def build_dataset (sha : String → String) (title : Option String)
    (url : Option String) (description : Option String) (tags : List String)
    (source : String) (crawl_job_id : Option String) : BuildResult :=
  let titleC := clean_text title
  let descriptionC := clean_text description
  let urlC : Option String := match url with
    | none => none
    | some u => if u.data = [] then none else some (String.mk (pyStrip u.data))
  let tagsC := process_tags tags
  if validate_title titleC = false then
    .raised (String.append "Invalid title: " (titleC.getD "None"))
  else
    match urlC with
    | none => .raised "Invalid URL: None"
    | some u =>
      if validate_url (some u) = false then
        .raised (String.append "Invalid URL: " u)
      else
        let extension := extract_extension u
        let hash_value := generate_hash sha u
        let contentHash := generate_content_hash sha titleC descriptionC tagsC
        .ok {
          title := titleC.getD "",
          description := descriptionC,
          extension := extension,
          original_file_name := titleC.getD "",
          file_references := [u],
          source := source,
          tags := tagsC,
          is_link := true,
          is_private := false,
          is_active := true,
          is_deleted := false,
          hashVal := hash_value,
          content_hash := contentHash,
          crawl_job_id := crawl_job_id }

/-- Embedding of `DataProcessor.validate_dataset`: the required keys
`title`, `file_references`, `hash`, `source` must be present and truthy. -/
def validate_dataset (d : PyDataset) : Bool :=
  !(d.title.data.isEmpty) && !(d.file_references.isEmpty) &&
    !(d.hashVal.data.isEmpty) && !(d.source.data.isEmpty)

-- scratch: claim C8 inputs
example : extract_extension "http://x.test/d.csv?format=xlsx" = some "csv" := by decide
example : extract_extension "http://x.test/download?format=geojson" = some "geojson" := by decide

/-! Embedding of `CrawlerService` (`app/services/crawler_service.py`).
The instance fields mutated across callbacks (`datasets_buffer`,
`test_mode`, the database session and its tables, the per-job JSON side
file) are threaded as an explicit state record; the availability of the
database session, the success of `commit`, and the success of the side
file write are environment parameters of the state. -/

/-- A row of the `datasets` table as constructed by
`CrawlerService._save_datasets` via the `Dataset(...)` model
(`app/models/dataset.py`). Every column is written from
`dataset_data.get(...)`, so absent dict keys become `none` (SQL `NULL`).
In particular the code passes the dict's `hash` value to the row's
`content_hash` column and never sets the row's `hash` column; the dict has
no `url` key, so `url` is always `none`. -/
structure DbRow where
  title : Option String
  description : Option String
  url : Option String
  source : Option String
  hash : Option String
  content_hash : Option String
  tags : List String
  crawl_job_id : Option String
deriving DecidableEq, Repr

/-- The `Dataset(...)` constructor call inside
`CrawlerService._save_datasets`, field by field. -/
def toRow (jobRowId : Option String) (d : PyDataset) : DbRow :=
  { title := some d.title,
    description := d.description,
    url := none,
    source := some d.source,
    hash := none,
    content_hash := some d.hashVal,
    tags := d.tags,
    crawl_job_id := jobRowId }

/-- Embedding of `Dataset.find_by_hash` (`app/models/dataset.py`): first
row whose `hash` column equals the given value. -/
def find_by_hash (rows : List DbRow) (hashValue : String) : Option DbRow :=
  rows.find? (fun row => row.hash == some hashValue)

/-- Explicit state for one `CrawlerService` run. -/
structure ServiceState where
  test_mode : Bool
  datasets_buffer : List PyDataset
  dbPresent : Bool
  dbOk : Bool
  dbRows : List DbRow
  jsonFile : List PyDataset
  jsonOk : Bool
  crawlJobRowId : Option String
deriving DecidableEq, Repr

/-- Embedding of `CrawlerService._check_duplicate`: when a database
session exists (and the dict has a `hash` key, which `build_dataset`
output always has), query the `datasets` table filtering the
`content_hash` column by the dict's `hash` value; a query failure is
caught and reported as `False`; without a session the answer is `False`. -/
def check_duplicate (s : ServiceState) (d : PyDataset) : Bool :=
  if s.dbPresent then
    if s.dbOk then
      (s.dbRows.find? (fun row => row.content_hash == some d.hashVal)).isSome
    else false
  else false

/-- Embedding of `CrawlerService._save_to_json`: append the record to the
per-job file `data/{job_id}.json`; any failure is caught and logged, so
the call always returns normally. -/
def save_to_json (s : ServiceState) (d : PyDataset) : ServiceState :=
  if s.jsonOk then { s with jsonFile := s.jsonFile ++ [d] } else s

/-- Embedding of `CrawlerService._save_datasets`: an empty batch returns;
with a session, each record is turned into a `Dataset` row and committed;
on a commit failure the session is rolled back and every record of the
batch is appended to the JSON side file; without a session every record
goes to the JSON side file. -/
def save_datasets (s : ServiceState) (datasets : List PyDataset) : ServiceState :=
  if datasets.isEmpty then s
  else if s.dbPresent then
    if s.dbOk then
      { s with dbRows := s.dbRows ++ datasets.map (toRow s.crawlJobRowId) }
    else
      datasets.foldl save_to_json s
  else
    datasets.foldl save_to_json s

/-- Embedding of `CrawlerService._on_dataset_found`. The second component
reports whether a duplicate classification was computed for the record
(`some b` with `b` the value of `_check_duplicate`) or skipped entirely
(`none`, the test-mode early return). -/
def on_dataset_found (s : ServiceState) (d : PyDataset) :
    ServiceState × Option Bool :=
  if s.test_mode then (save_to_json s d, none)
  else
    let dup := check_duplicate s d
    if dup then (s, some true)
    else
      let s1 := { s with datasets_buffer := s.datasets_buffer ++ [d] }
      if 10 ≤ s1.datasets_buffer.length then
        ({ save_datasets s1 s1.datasets_buffer with datasets_buffer := [] },
          some false)
      else (s1, some false)

/-- The state `CrawlerService.start_crawl` installs before running the
crawler: `test_mode` from the options, an empty `datasets_buffer`. -/
def initServiceState (testMode dbPresent dbOk jsonOk : Bool)
    (rows : List DbRow) (jobRowId : Option String) : ServiceState :=
  { test_mode := testMode, datasets_buffer := [], dbPresent := dbPresent,
    dbOk := dbOk, dbRows := rows, jsonFile := [], jsonOk := jsonOk,
    crawlJobRowId := jobRowId }

/-- The dataset-found portion of one `CrawlerService.start_crawl` run:
every found record is handed to `_on_dataset_found`, and at end of walk
the remaining buffer is flushed unless the job is in test mode. -/
def run_found (s : ServiceState) (found : List PyDataset) : ServiceState :=
  let s1 := found.foldl (fun st d => (on_dataset_found st d).1) s
  if s1.test_mode then s1 else save_datasets s1 s1.datasets_buffer

/-- The classification trace of a run: the second components returned by
`_on_dataset_found` for each found record, in order. -/
def run_trace : ServiceState → List PyDataset → List (Option Bool)
  | _, [] => []
  | s, d :: rest =>
    let r := on_dataset_found s d
    r.2 :: run_trace r.1 rest

/-! Embedding of the crawl statistics and page loop
(`app/crawlers/base_crawler.py`, `app/crawlers/static_crawler.py`). -/

/-- The `BaseCrawler.stats` dictionary. -/
structure CrawlStats where
  pages_crawled : Nat
  datasets_found : Nat
  datasets_saved : Nat
  duplicates_skipped : Nat
  errors : Nat
deriving DecidableEq, Repr

/-- The statistics a freshly constructed crawler starts with. -/
def initStats : CrawlStats :=
  { pages_crawled := 0, datasets_found := 0, datasets_saved := 0,
    duplicates_skipped := 0, errors := 0 }

/-- The crawl options relevant to the loop (`options.get('max_pages')`,
`options.get('test_mode', False)`). -/
structure CrawlOptions where
  max_pages : Option Nat
  test_mode : Bool
deriving DecidableEq, Repr

/-- Embedding of `BaseCrawler.should_continue`: stop when `max_pages` is
set (truthy, hence non-zero) and `pages_crawled` has reached it. -/
def should_continue (o : CrawlOptions) (stats : CrawlStats) : Bool :=
  match o.max_pages with
  | none => true
  | some m => if m ≠ 0 ∧ m ≤ stats.pages_crawled then false else true

/-- A fetched page as seen by `StaticSpider.parse_dataset`: its URL and
the results of `_extract_field` / `_extract_tags` (title and description
already passed through `clean_text`, tags through `process_tags`). -/
structure Page where
  url : String
  title : Option String
  description : Option String
  tags : List String
deriving DecidableEq, Repr

/-- State of one spider walk: the crawler statistics plus the datasets
handed to the dataset-found callback. -/
structure SpiderState where
  stats : CrawlStats
  reported : List PyDataset
deriving DecidableEq, Repr

/-- Embedding of `StaticSpider.parse_dataset`: unconditionally count the
page (`handler.increment_pages_crawled`), skip silently when no title was
extracted, build the dataset (a `ValueError` raised by `build_dataset` is
caught by the surrounding `try` and reported through `handler.on_error`,
which increments the `errors` counter), validate it, and report it
(`handler.on_dataset_found`, which increments `datasets_found`). -/
def parse_dataset (sha : String → String) (source : String) (jobId : String)
    (st : SpiderState) (page : Page) : SpiderState :=
  let st := { st with stats.pages_crawled := st.stats.pages_crawled + 1 }
  match page.title with
  | none => st
  | some t =>
    if t.data = [] then st
    else
      match build_dataset sha (some t) (some page.url) page.description
          page.tags source (some jobId) with
      | .raised _ => { st with stats.errors := st.stats.errors + 1 }
      | .ok d =>
        if validate_dataset d then
          { st with
            stats.datasets_found := st.stats.datasets_found + 1,
            reported := st.reported ++ [d] }
        else st

/-- One spider walk over the extraction-matched pages it visits, in visit
order. `StaticSpider` calls `parse_dataset` on every such page; no code
in the loop consults `should_continue` or any page budget. -/
def runSpider (sha : String → String) (source : String) (jobId : String)
    (pages : List Page) : SpiderState :=
  pages.foldl (parse_dataset sha source jobId) { stats := initStats, reported := [] }

/-! Embedding of the cancellation endpoint (`app/api/v1/crawl.py`,
`cancel_crawl_job`) and `CrawlJob.cancel` (`app/models/crawl_job.py`). -/

/-- The part of a `CrawlJob` row the cancellation endpoint touches. -/
structure JobRec where
  job_id : String
  status : String
deriving DecidableEq, Repr

/-- Responses of the cancellation endpoint: 404 when the job id is
unknown, a 400 client error when the job is in a terminal state, success
otherwise. -/
inductive CancelResult where
  | notFound
  | invalidStatus (currentStatus : String)
  | cancelled
deriving DecidableEq, Repr

/-- Embedding of `CrawlJob.cancel`: set the status to `cancelled`. -/
def job_cancel (j : JobRec) : JobRec :=
  { j with status := "cancelled" }

/-- Embedding of `cancel_crawl_job`: look the job up; reject with a 404
when absent; reject with a 400 (`Cannot cancel job with status: ...`) and
leave the row untouched when the status is `completed`, `failed` or
`cancelled`; otherwise revoke the task, call `CrawlJob.cancel` and commit.
Returns the response and the resulting job row. -/
def cancel_crawl_job (job : Option JobRec) : CancelResult × Option JobRec :=
  match job with
  | none => (.notFound, none)
  | some j =>
    if j.status == "completed" || j.status == "failed" || j.status == "cancelled" then
      (.invalidStatus j.status, some j)
    else
      (.cancelled, some (job_cancel j))

/-! Lemmas about the Python string primitives. -/

theorem isSpace_iff (c : Char) :
    isSpace c = true ↔
      (c.toNat = 32 ∨ c.toNat = 9 ∨ c.toNat = 10 ∨ c.toNat = 13 ∨
        c.toNat = 11 ∨ c.toNat = 12) := by
  simp [isSpace, Bool.or_eq_true, Nat.beq_eq, or_assoc]

theorem toNat_ofNat_valid (n : Nat) (h : n < 55296) : (Char.ofNat n).toNat = n := by
  have hv : n.isValidChar := Or.inl h
  simp [Char.ofNat, hv, Char.ofNatAux, Char.toNat, UInt32.toNat, BitVec.toNat_ofNatLt]

theorem toLower_of_not_upper (c : Char) (h : ¬(65 ≤ c.toNat ∧ c.toNat ≤ 90)) :
    c.toLower = c := by
  simp only [Char.toLower]
  rw [if_neg]
  intro hc
  exact h ⟨hc.1, hc.2⟩

theorem toNat_toLower_of_upper (c : Char) (h1 : 65 ≤ c.toNat) (h2 : c.toNat ≤ 90) :
    c.toLower.toNat = c.toNat + 32 := by
  simp only [Char.toLower]
  rw [if_pos ⟨h1, h2⟩]
  exact toNat_ofNat_valid (c.toNat + 32) (by omega)

theorem toLower_idem (c : Char) : c.toLower.toLower = c.toLower := by
  by_cases h : 65 ≤ c.toNat ∧ c.toNat ≤ 90
  · have hn : c.toLower.toNat = c.toNat + 32 := toNat_toLower_of_upper c h.1 h.2
    exact toLower_of_not_upper c.toLower (by omega)
  · rw [toLower_of_not_upper c h, toLower_of_not_upper c h]

theorem isSpace_toLower (c : Char) : isSpace c.toLower = isSpace c := by
  by_cases h : 65 ≤ c.toNat ∧ c.toNat ≤ 90
  · have hn : c.toLower.toNat = c.toNat + 32 := toNat_toLower_of_upper c h.1 h.2
    have h1 : isSpace c.toLower = false := by
      rw [← Bool.not_eq_true, isSpace_iff]
      omega
    have h2 : isSpace c = false := by
      rw [← Bool.not_eq_true, isSpace_iff]
      omega
    rw [h1, h2]
  · rw [toLower_of_not_upper c h]

theorem isSpace_comp_pyLowerChar :
    (fun c => isSpace (pyLowerChar c)) = isSpace := by
  funext c
  exact isSpace_toLower c

theorem dropWhile_map_comm (f : Char → Char) (p : Char → Bool) (l : List Char) :
    (l.map f).dropWhile p = (l.dropWhile (fun c => p (f c))).map f := by
  induction l with
  | nil => simp
  | cons c rest ih =>
    by_cases h : p (f c) <;> simp [List.dropWhile_cons, h, ih]

theorem rdropWhile_map_comm (f : Char → Char) (p : Char → Bool) (l : List Char) :
    (l.map f).rdropWhile p = (l.rdropWhile (fun c => p (f c))).map f := by
  simp only [List.rdropWhile, ← List.map_reverse, dropWhile_map_comm]

theorem pyLower_idem (l : List Char) : pyLower (pyLower l) = pyLower l := by
  simp only [pyLower, List.map_map]
  apply List.map_congr_left
  intro c _
  exact toLower_idem c

theorem pyStrip_pyLower (l : List Char) :
    pyStrip (pyLower l) = pyLower (pyStrip l) := by
  simp only [pyStrip, pyLower, dropWhile_map_comm, rdropWhile_map_comm,
    isSpace_comp_pyLowerChar]

theorem dropWhile_rdropWhile_fix (p : Char → Bool) (m : List Char)
    (h : m.dropWhile p = m) :
    (m.rdropWhile p).dropWhile p = m.rdropWhile p := by
  obtain ⟨t, ht⟩ := List.rdropWhile_prefix p m
  cases hr : m.rdropWhile p with
  | nil => simp
  | cons a as =>
    rw [hr] at ht
    have hm : m = a :: (as ++ t) := by rw [← ht]; simp
    have hpa : ¬ p a = true := by
      have h0 := List.dropWhile_eq_self_iff.mp h
      rw [hm] at h0
      simpa using h0 (by simp)
    simp [List.dropWhile_cons, hpa]

theorem pyStrip_idem (l : List Char) : pyStrip (pyStrip l) = pyStrip l := by
  have h1 : (l.dropWhile isSpace).dropWhile isSpace = l.dropWhile isSpace :=
    List.dropWhile_idempotent isSpace (l.dropWhile isSpace) |>.symm ▸
      List.dropWhile_idempotent isSpace l
  simp only [pyStrip]
  rw [dropWhile_rdropWhile_fix isSpace (l.dropWhile isSpace)
    (List.dropWhile_idempotent isSpace l)]
  exact List.rdropWhile_idempotent isSpace (l.dropWhile isSpace)

/-- The claim's normalization `lowercase(trim(U))`. -/
def normalize_case_and_trim (u : String) : String :=
  String.mk (pyLower (pyStrip u.data))

/-- C9: for every URL `U` and every hash primitive, the identity hash of
`U` equals the identity hash of the case-normalized and trimmed form of
`U`: `generate_hash(U) == generate_hash(lowercase(trim(U)))` — record
identity is insensitive to URL letter case and surrounding whitespace. -/
theorem generate_hash_case_trim_insensitive (sha : String → String) (u : String) :
    generate_hash sha u = generate_hash sha (normalize_case_and_trim u) := by
  have key : pyStrip (pyLower (pyLower (pyStrip u.data))) = pyStrip (pyLower u.data) := by
    rw [pyLower_idem, pyStrip_pyLower, pyStrip_idem, ← pyStrip_pyLower]
  simp only [generate_hash, normalize_case_and_trim]
  show sha (String.mk (pyStrip (pyLower u.data))) =
    sha (String.mk (pyStrip (pyLower (pyLower (pyStrip u.data)))))
  rw [key]

/-- C8: extension derivation gives the URL path's trailing allow-listed
extension precedence over a `format=` query parameter: for
`http://x.test/d.csv?format=xlsx` the derived extension is `csv`, and for
`http://x.test/download?format=geojson` (no path extension) it is
`geojson`. -/
theorem extract_extension_precedence :
    extract_extension "http://x.test/d.csv?format=xlsx" = some "csv" ∧
    extract_extension "http://x.test/download?format=geojson" = some "geojson" := by
  exact ⟨by decide, by decide⟩

/-- C6: a cancellation request against a job whose status is terminal
(`completed`, `failed` or `cancelled`) is rejected with the 400 client
error response (`Cannot cancel job with status: ...`) and the job row is
returned unchanged — it is never silently accepted. -/
theorem cancel_terminal_rejected (j : JobRec)
    (h : j.status = "completed" ∨ j.status = "failed" ∨ j.status = "cancelled") :
    cancel_crawl_job (some j) = (.invalidStatus j.status, some j) := by
  rcases h with h | h | h <;> simp [cancel_crawl_job, h]

/-- Witness for `cancel_terminal_rejected` at a concrete terminal job. -/
theorem cancel_terminal_rejected_witness :
    cancel_crawl_job (some { job_id := "job-7", status := "failed" }) =
      (.invalidStatus "failed", some { job_id := "job-7", status := "failed" }) :=
  cancel_terminal_rejected { job_id := "job-7", status := "failed" }
    (Or.inr (Or.inl rfl))

/-- C3 (code bug): the page budget is not enforced. With
`max_pages = 1` set in the options, a walk that visits two
extraction-matched pages counts `pages_crawled = 2`, exceeding the
budget: `StaticSpider.parse_dataset` increments the counter on every page
and nothing in the walk ever consults `BaseCrawler.should_continue`, even
though `should_continue` (third conjunct) already reports `false` once a
single page has been counted. -/
theorem page_budget_not_enforced :
    (runSpider id "S" "job-1"
      [{ url := "http://x.test/item/1", title := some "Alpha set",
         description := none, tags := [] },
       { url := "http://x.test/item/2", title := some "Beta set",
         description := none, tags := [] }]).stats.pages_crawled = 2 ∧
    ¬ (runSpider id "S" "job-1"
      [{ url := "http://x.test/item/1", title := some "Alpha set",
         description := none, tags := [] },
       { url := "http://x.test/item/2", title := some "Beta set",
         description := none, tags := [] }]).stats.pages_crawled ≤ 1 ∧
    should_continue { max_pages := some 1, test_mode := false }
      { pages_crawled := 1, datasets_found := 0, datasets_saved := 0,
        duplicates_skipped := 0, errors := 0 } = false := by
  refine ⟨by decide, by decide, by decide⟩

/-- Sample stored row for the C1 scenario: a dataset previously persisted
for URL identity hash `H1` whose stored content hash is `C1`. -/
def c1row : DbRow :=
  { title := some "Old title", description := none,
    url := some "http://x.test/item/42", source := some "S",
    hash := some "H1", content_hash := some "C1", tags := [],
    crawl_job_id := none }

/-- Sample incoming record for the C1 scenario: same identity hash `H1`,
changed content hash `C2`. -/
def c1rec : PyDataset :=
  { title := "New title", description := none, extension := none,
    original_file_name := "New title",
    file_references := ["http://x.test/item/42"], source := "S",
    tags := [], is_link := true, is_private := false, is_active := true,
    is_deleted := false, hashVal := "H1", content_hash := "C2",
    crawl_job_id := none }

/-- C1 (code bug): the dedup gateway does not look records up by the
identity key. For an incoming record whose identity hash `H1` matches a
stored row (hash column `H1`, stored content hash `C1`, new content hash
`C2`), the identity-keyed lookup `Dataset.find_by_hash` does find the
stored row, yet `CrawlerService._check_duplicate` — which filters the
`content_hash` column by the new record's `hash` value — misses it, so
instead of the claimed `Updated` outcome the record is buffered as brand
new and flushed as a second row. No `Created`/`Updated`/`Unchanged`
outcome is computed anywhere in the service. -/
theorem dedup_lookup_not_by_hash :
    (find_by_hash (initServiceState false true true true [c1row] none).dbRows
        c1rec.hashVal).isSome = true ∧
    check_duplicate (initServiceState false true true true [c1row] none) c1rec
        = false ∧
    (run_found (initServiceState false true true true [c1row] none)
        [c1rec]).dbRows.length = 2 := by
  refine ⟨by decide, by decide, by decide⟩

/-- Sample record for the C2 scenario. -/
def c2rec : PyDataset :=
  { title := "Population 2024", description := none, extension := none,
    original_file_name := "Population 2024",
    file_references := ["http://x.test/item/7"], source := "S",
    tags := [], is_link := true, is_private := false, is_active := true,
    is_deleted := false, hashVal := "H7", content_hash := "C7",
    crawl_job_id := none }

/-- C2 (code bug): processing the same record twice with no intervening
change does not yield one `Created` and one `Unchanged`. Both passes
through `_on_dataset_found` classify the record as not-a-duplicate (the
trace is `[some false, some false]`; no `Created`/`Unchanged` outcome
exists in the code), and the end-of-walk flush stores two rows carrying
the same identity hash — a duplicate row for the same `hash`. -/
theorem classify_twice_not_idempotent :
    (run_found (initServiceState false true true true [] none)
        [c2rec, c2rec]).dbRows.length = 2 ∧
    (run_found (initServiceState false true true true [] none)
        [c2rec, c2rec]).dbRows.map DbRow.content_hash
      = [some c2rec.hashVal, some c2rec.hashVal] ∧
    run_trace (initServiceState false true true true [] none) [c2rec, c2rec]
      = [some false, some false] := by
  refine ⟨by decide, by decide, by decide⟩

/-! Lemmas about the service state machine. -/

theorem foldl_save_to_json (l : List PyDataset) (s : ServiceState)
    (hjson : s.jsonOk = true) :
    l.foldl save_to_json s = { s with jsonFile := s.jsonFile ++ l } := by
  induction l generalizing s with
  | nil => simp
  | cons d rest ih =>
    rw [List.foldl_cons]
    have h1 : save_to_json s d = { s with jsonFile := s.jsonFile ++ [d] } := by
      simp [save_to_json, hjson]
    rw [h1, ih { s with jsonFile := s.jsonFile ++ [d] } hjson]
    simp

theorem foldl_found_test_mode (found : List PyDataset) (s : ServiceState)
    (h : s.test_mode = true) (hjson : s.jsonOk = true) :
    found.foldl (fun st d => (on_dataset_found st d).1) s
      = { s with jsonFile := s.jsonFile ++ found } := by
  induction found generalizing s with
  | nil => simp
  | cons d rest ih =>
    rw [List.foldl_cons]
    have h1 : (on_dataset_found s d).1 = { s with jsonFile := s.jsonFile ++ [d] } := by
      simp [on_dataset_found, h, save_to_json, hjson]
    rw [h1, ih { s with jsonFile := s.jsonFile ++ [d] } h hjson]
    simp

theorem run_trace_test_mode (found : List PyDataset) (s : ServiceState)
    (h : s.test_mode = true) (hjson : s.jsonOk = true) :
    run_trace s found = found.map (fun _ => none) := by
  induction found generalizing s with
  | nil => simp [run_trace]
  | cons d rest ih =>
    have h1 : on_dataset_found s d = ({ s with jsonFile := s.jsonFile ++ [d] }, none) := by
      simp [on_dataset_found, h, save_to_json, hjson]
    simp only [run_trace, h1]
    rw [ih { s with jsonFile := s.jsonFile ++ [d] } h hjson]
    simp

/-- C5: when the job's options carry the test flag, the run performs no
write to the dataset store: the dataset table and the buffer are left
exactly as they were, every found record is appended (in order) to the
per-job JSON side file instead, and the duplicate classification is
skipped entirely — `_on_dataset_found` returns before `_check_duplicate`
for every record, so no outcome is computed (the trace is all `none`). -/
theorem test_mode_no_store_writes (s : ServiceState) (found : List PyDataset)
    (h : s.test_mode = true) (hjson : s.jsonOk = true) :
    run_found s found = { s with jsonFile := s.jsonFile ++ found } ∧
    (run_found s found).dbRows = s.dbRows ∧
    run_trace s found = found.map (fun _ => none) := by
  have h1 := foldl_found_test_mode found s h hjson
  have h2 : run_found s found = { s with jsonFile := s.jsonFile ++ found } := by
    rw [run_found, h1]
    simp [h]
  exact ⟨h2, by rw [h2], run_trace_test_mode found s h hjson⟩

/-- Sample record for the C5 witness. -/
def c5rec : PyDataset :=
  { title := "Rainfall 2023", description := none, extension := none,
    original_file_name := "Rainfall 2023",
    file_references := ["http://x.test/item/9"], source := "S",
    tags := [], is_link := true, is_private := false, is_active := true,
    is_deleted := false, hashVal := "H9", content_hash := "C9x",
    crawl_job_id := none }

/-- Witness for `test_mode_no_store_writes` at a concrete test-mode run. -/
theorem test_mode_no_store_writes_witness :
    run_found (initServiceState true true true true [] none) [c5rec]
        = { initServiceState true true true true [] none with
            jsonFile := (initServiceState true true true true [] none).jsonFile
              ++ [c5rec] } ∧
    (run_found (initServiceState true true true true [] none) [c5rec]).dbRows
        = (initServiceState true true true true [] none).dbRows ∧
    run_trace (initServiceState true true true true [] none) [c5rec]
        = [c5rec].map (fun _ => none) :=
  test_mode_no_store_writes (initServiceState true true true true [] none)
    [c5rec] rfl rfl

/-- C7: records accumulate in the batch buffer — `_on_dataset_found`
appends the record while the buffer stays below the batch size of 10, and
flushes then empties the buffer when it reaches 10; the end-of-walk step
flushes whatever remains; a flush whose database commit fails falls back
to appending every record of the failed batch, in order, to the per-job
JSON side file; every function on this path catches its own exceptions
(the embedding is total), so the fallback never raises past the caller. -/
theorem batch_flush_and_json_fallback (s : ServiceState) (d : PyDataset)
    (batch : List PyDataset) (htm : s.test_mode = false)
    (hdb : s.dbPresent = true) (hfail : s.dbOk = false) (hjson : s.jsonOk = true)
    (hbound : s.datasets_buffer.length < 10) :
    ((on_dataset_found s d).1.datasets_buffer =
      if s.datasets_buffer.length + 1 = 10 then [] else s.datasets_buffer ++ [d]) ∧
    run_found s [] = save_datasets s s.datasets_buffer ∧
    save_datasets s batch =
      (if batch.isEmpty then s else { s with jsonFile := s.jsonFile ++ batch }) := by
  refine ⟨?_, ?_, ?_⟩
  · have hdup : check_duplicate s d = false := by
      simp [check_duplicate, hdb, hfail]
    by_cases hfull : s.datasets_buffer.length + 1 = 10
    · have h9 : 9 ≤ s.datasets_buffer.length := by omega
      simp [on_dataset_found, htm, hdup, hfull, h9]
    · have h9 : ¬ 9 ≤ s.datasets_buffer.length := by omega
      simp [on_dataset_found, htm, hdup, hfull, h9]
  · simp [run_found, htm]
  · by_cases hb : batch.isEmpty
    · simp [save_datasets, hb]
    · rw [if_neg hb]
      have hps : save_datasets s batch = batch.foldl save_to_json s := by
        simp [save_datasets, hb, hdb, hfail]
      rw [hps, foldl_save_to_json batch s hjson]

/-- Sample record for the C7 witness. -/
def c7rec : PyDataset :=
  { title := "Census 2022", description := none, extension := none,
    original_file_name := "Census 2022",
    file_references := ["http://x.test/item/3"], source := "S",
    tags := [], is_link := true, is_private := false, is_active := true,
    is_deleted := false, hashVal := "H3", content_hash := "C3x",
    crawl_job_id := none }

/-- Witness for `batch_flush_and_json_fallback` at a concrete state whose
database commit fails. -/
theorem batch_flush_and_json_fallback_witness :
    ((on_dataset_found (initServiceState false true false true [] none) c7rec).1.datasets_buffer =
      if (initServiceState false true false true [] none).datasets_buffer.length + 1 = 10
      then [] else (initServiceState false true false true [] none).datasets_buffer ++ [c7rec]) ∧
    run_found (initServiceState false true false true [] none) [] =
      save_datasets (initServiceState false true false true [] none)
        (initServiceState false true false true [] none).datasets_buffer ∧
    save_datasets (initServiceState false true false true [] none) [c7rec] =
      (if ([c7rec] : List PyDataset).isEmpty
       then initServiceState false true false true [] none
       else { initServiceState false true false true [] none with
              jsonFile := (initServiceState false true false true [] none).jsonFile
                ++ [c7rec] }) :=
  batch_flush_and_json_fallback (initServiceState false true false true [] none)
    c7rec [c7rec] rfl rfl rfl rfl (by decide)

/-! Lemmas about `collapseAux`, `pyStrip` and `clean_text`, towards the
`clean_text` contract. -/

/-- No two consecutive whitespace characters. -/
def noDoubleWS : List Char → Bool
  | [] => true
  | [_] => true
  | a :: b :: rest => !(isSpace a && isSpace b) && noDoubleWS (b :: rest)

/-- Every whitespace character is a plain space. -/
def wsOnlySpace (l : List Char) : Bool :=
  l.all (fun c => !(isSpace c) || c == ' ')

theorem noDoubleWS_cons (a : Char) (l : List Char) :
    noDoubleWS (a :: l) = true ↔
      ((∀ c, l.head? = some c → (isSpace a && isSpace c) = false) ∧
        noDoubleWS l = true) := by
  cases l with
  | nil => simp [noDoubleWS]
  | cons b rest =>
    simp only [noDoubleWS, Bool.and_eq_true, Bool.not_eq_true']
    constructor
    · rintro ⟨h1, h2⟩
      refine ⟨fun c hc => ?_, h2⟩
      have hbc : b = c := by simpa using hc
      rw [← hbc]
      exact h1
    · rintro ⟨h1, h2⟩
      exact ⟨h1 b rfl, h2⟩

theorem head?_collapseAux_true (l : List Char) (c : Char)
    (h : (collapseAux true l).head? = some c) : isSpace c = false := by
  induction l with
  | nil => simp [collapseAux] at h
  | cons a rest ih =>
    by_cases ha : isSpace a
    · rw [show collapseAux true (a :: rest) = collapseAux true rest by
        simp [collapseAux, ha]] at h
      exact ih h
    · have ha' : isSpace a = false := by simpa using ha
      rw [show collapseAux true (a :: rest) = a :: collapseAux false rest by
        simp [collapseAux, ha']] at h
      simp only [List.head?, Option.some.injEq] at h
      rw [← h]
      exact ha'

theorem collapseAux_noDoubleWS (l : List Char) (b : Bool) :
    noDoubleWS (collapseAux b l) = true := by
  induction l generalizing b with
  | nil => cases b <;> simp [collapseAux, noDoubleWS]
  | cons a rest ih =>
    by_cases ha : isSpace a
    · cases b with
      | true =>
        rw [show collapseAux true (a :: rest) = collapseAux true rest by
          simp [collapseAux, ha]]
        exact ih true
      | false =>
        rw [show collapseAux false (a :: rest) = ' ' :: collapseAux true rest by
          simp [collapseAux, ha]]
        rw [noDoubleWS_cons]
        refine ⟨fun c hc => ?_, ih true⟩
        rw [head?_collapseAux_true rest c hc]
        simp
    · have ha' : isSpace a = false := by simpa using ha
      have hrw : collapseAux b (a :: rest) = a :: collapseAux false rest := by
        cases b <;> simp [collapseAux, ha']
      rw [hrw, noDoubleWS_cons]
      refine ⟨fun c _ => ?_, ih false⟩
      rw [ha']
      simp

theorem collapseAux_wsOnlySpace (l : List Char) (b : Bool) :
    wsOnlySpace (collapseAux b l) = true := by
  induction l generalizing b with
  | nil => cases b <;> simp [collapseAux, wsOnlySpace]
  | cons a rest ih =>
    by_cases ha : isSpace a
    · cases b with
      | true =>
        rw [show collapseAux true (a :: rest) = collapseAux true rest by
          simp [collapseAux, ha]]
        exact ih true
      | false =>
        rw [show collapseAux false (a :: rest) = ' ' :: collapseAux true rest by
          simp [collapseAux, ha]]
        have h2 := ih true
        simp only [wsOnlySpace, List.all_cons, Bool.and_eq_true] at h2 ⊢
        exact ⟨by simp, h2⟩
    · have ha' : isSpace a = false := by simpa using ha
      have hrw : collapseAux b (a :: rest) = a :: collapseAux false rest := by
        cases b <;> simp [collapseAux, ha']
      rw [hrw]
      have h2 := ih false
      simp only [wsOnlySpace, List.all_cons, Bool.and_eq_true] at h2 ⊢
      exact ⟨by simp [ha'], h2⟩

theorem getLast?_collapseAux (l : List Char) (b : Bool) (c : Char)
    (h : l.getLast? = some c) (hc : isSpace c = false) :
    (collapseAux b l).getLast? = some c := by
  induction l generalizing b with
  | nil => simp at h
  | cons a rest ih =>
    cases rest with
    | nil =>
      simp only [List.getLast?_singleton, Option.some.injEq] at h
      subst h
      cases b <;> simp [collapseAux, hc]
    | cons r rs =>
      have hlast : (r :: rs).getLast? = some c := by
        rw [List.getLast?_cons_cons] at h
        exact h
      by_cases ha : isSpace a
      · cases b with
        | true =>
          rw [show collapseAux true (a :: r :: rs) = collapseAux true (r :: rs) by
            simp [collapseAux, ha]]
          exact ih true hlast
        | false =>
          rw [show collapseAux false (a :: r :: rs) = ' ' :: collapseAux true (r :: rs) by
            simp [collapseAux, ha]]
          have h2 := ih true hlast
          cases hx : collapseAux true (r :: rs) with
          | nil => rw [hx] at h2; simp at h2
          | cons y ys =>
            rw [hx] at h2
            rw [List.getLast?_cons_cons]
            exact h2
      · have ha' : isSpace a = false := by simpa using ha
        have hrw : collapseAux b (a :: r :: rs) = a :: collapseAux false (r :: rs) := by
          cases b <;> simp [collapseAux, ha']
        rw [hrw]
        have h2 := ih false hlast
        cases hx : collapseAux false (r :: rs) with
        | nil => rw [hx] at h2; simp at h2
        | cons y ys =>
          rw [hx] at h2
          rw [List.getLast?_cons_cons]
          exact h2

theorem collapseAux_fix (l : List Char) (hnd : noDoubleWS l = true)
    (hws : wsOnlySpace l = true) :
    collapseAux false l = l ∧
      ((∀ c, l.head? = some c → isSpace c = false) → collapseAux true l = l) := by
  induction l with
  | nil => exact ⟨rfl, fun _ => rfl⟩
  | cons a rest ih =>
    have hndr : noDoubleWS rest = true := ((noDoubleWS_cons a rest).mp hnd).2
    have hhead := ((noDoubleWS_cons a rest).mp hnd).1
    have hwsa : (!(isSpace a) || a == ' ') = true := by
      simp only [wsOnlySpace, List.all_cons, Bool.and_eq_true] at hws
      exact hws.1
    have hwsr : wsOnlySpace rest = true := by
      simp only [wsOnlySpace, List.all_cons, Bool.and_eq_true] at hws
      exact hws.2
    obtain ⟨ih1, ih2⟩ := ih hndr hwsr
    by_cases ha : isSpace a
    · have haeq : a = ' ' := by
        simp only [ha, Bool.not_true, Bool.false_or, beq_iff_eq] at hwsa
        exact hwsa
      have hresthead : ∀ c, rest.head? = some c → isSpace c = false := by
        intro c hc
        have := hhead c hc
        rw [ha] at this
        simpa using this
      constructor
      · rw [show collapseAux false (a :: rest) = ' ' :: collapseAux true rest by
          simp [collapseAux, ha]]
        rw [ih2 hresthead, haeq]
      · intro hh
        have := hh a rfl
        rw [ha] at this
        simp at this
    · have ha' : isSpace a = false := by simpa using ha
      constructor
      · rw [show collapseAux false (a :: rest) = a :: collapseAux false rest by
          simp [collapseAux, ha']]
        rw [ih1]
      · intro _
        rw [show collapseAux true (a :: rest) = a :: collapseAux false rest by
          simp [collapseAux, ha']]
        rw [ih1]

theorem collapseAux_false_ne_nil (a : Char) (rest : List Char) :
    collapseAux false (a :: rest) ≠ [] := by
  by_cases ha : isSpace a <;> simp [collapseAux, ha]

theorem map_replaceNRT_of_wsOnlySpace (l : List Char)
    (h : wsOnlySpace l = true) : l.map replaceNRT = l := by
  induction l with
  | nil => rfl
  | cons a rest ih =>
    simp only [wsOnlySpace, List.all_cons, Bool.and_eq_true] at h
    have hr : rest.map replaceNRT = rest := ih h.2
    have ha : replaceNRT a = a := by
      by_cases hn : (a == '\n' || a == '\r' || a == '\t') = true
      · exfalso
        have hsp : isSpace a = true ∧ (a == ' ') = false := by
          rcases Bool.or_eq_true _ _ |>.mp hn with hh | hh
          · rcases Bool.or_eq_true _ _ |>.mp hh with hh' | hh'
            · rw [show a = '\n' from beq_iff_eq.mp hh']
              exact ⟨by decide, by decide⟩
            · rw [show a = '\r' from beq_iff_eq.mp hh']
              exact ⟨by decide, by decide⟩
          · rw [show a = '\t' from beq_iff_eq.mp hh]
            exact ⟨by decide, by decide⟩
        have := h.1
        rw [hsp.1, hsp.2] at this
        simp at this
      · simp only [replaceNRT]
        rw [if_neg hn]
    rw [List.map_cons, ha, hr]

theorem clean_text_some (s : String) :
    clean_text (some s) =
      if s.data = [] then none
      else if cleanList s.data = [] then none
      else some (String.mk (cleanList s.data)) := rfl

theorem head?_dropWhile_false (p : Char → Bool) (l : List Char) (c : Char)
    (h : (l.dropWhile p).head? = some c) : p c = false := by
  induction l with
  | nil => simp at h
  | cons a rest ih =>
    by_cases ha : p a
    · rw [List.dropWhile_cons, if_pos ha] at h
      exact ih h
    · rw [List.dropWhile_cons, if_neg ha] at h
      simp only [List.head?, Option.some.injEq] at h
      rw [← h]
      simpa using ha

theorem head?_pyStrip (l : List Char) (c : Char)
    (h : (pyStrip l).head? = some c) : isSpace c = false := by
  have hps : pyStrip l = (l.dropWhile isSpace).rdropWhile isSpace := rfl
  obtain ⟨t, ht⟩ := List.rdropWhile_prefix isSpace (l.dropWhile isSpace)
  cases hr : pyStrip l with
  | nil => rw [hr] at h; simp at h
  | cons y ys =>
    rw [hr] at h
    simp only [List.head?, Option.some.injEq] at h
    rw [hps] at hr
    rw [hr] at ht
    have hy : (l.dropWhile isSpace).head? = some y := by
      rw [← ht]
      rfl
    rw [← h]
    exact head?_dropWhile_false isSpace l y hy

theorem getLast?_pyStrip (l : List Char) (c : Char)
    (h : (pyStrip l).getLast? = some c) : isSpace c = false := by
  have hps : pyStrip l = ((l.dropWhile isSpace).reverse.dropWhile isSpace).reverse := rfl
  rw [hps, List.getLast?_reverse] at h
  exact head?_dropWhile_false isSpace _ c h

theorem dropWhile_eq_self_of_head? (p : Char → Bool) (l : List Char)
    (hh : ∀ c, l.head? = some c → p c = false) : l.dropWhile p = l := by
  cases l with
  | nil => rfl
  | cons a rest =>
    rw [List.dropWhile_cons, if_neg]
    simp [hh a rfl]

theorem rdropWhile_eq_self_of_getLast? (p : Char → Bool) (l : List Char)
    (hh : ∀ c, l.getLast? = some c → p c = false) : l.rdropWhile p = l := by
  rw [List.rdropWhile]
  have h2 : l.reverse.dropWhile p = l.reverse := by
    apply dropWhile_eq_self_of_head?
    intro c hc
    apply hh
    rw [← List.head?_reverse]
    exact hc
  rw [h2, List.reverse_reverse]

theorem cleanList_eq_collapse (l : List Char) :
    cleanList l = collapseAux false (pyStrip l) := by
  unfold cleanList collapseWS
  exact map_replaceNRT_of_wsOnlySpace _ (collapseAux_wsOnlySpace _ false)

theorem cleanList_props (l : List Char) :
    noDoubleWS (cleanList l) = true ∧ wsOnlySpace (cleanList l) = true ∧
      pyStrip (cleanList l) = cleanList l := by
  rw [cleanList_eq_collapse]
  refine ⟨collapseAux_noDoubleWS _ false, collapseAux_wsOnlySpace _ false, ?_⟩
  have hhead : ∀ c, (collapseAux false (pyStrip l)).head? = some c →
      isSpace c = false := by
    intro c hc
    cases hps : pyStrip l with
    | nil => rw [hps] at hc; simp [collapseAux] at hc
    | cons a rest =>
      have ha : isSpace a = false := head?_pyStrip l a (by rw [hps]; rfl)
      rw [hps, show collapseAux false (a :: rest) = a :: collapseAux false rest by
        simp [collapseAux, ha]] at hc
      simp only [List.head?, Option.some.injEq] at hc
      rw [← hc]
      exact ha
  have hlast : ∀ c, (collapseAux false (pyStrip l)).getLast? = some c →
      isSpace c = false := by
    intro c hc
    cases hps : pyStrip l with
    | nil => rw [hps] at hc; simp [collapseAux] at hc
    | cons a rest =>
      cases hgl : (a :: rest).getLast? with
      | none => rw [List.getLast?_eq_none_iff] at hgl; simp at hgl
      | some c0 =>
        have hns : isSpace c0 = false :=
          getLast?_pyStrip l c0 (by rw [hps]; exact hgl)
        have hcl := getLast?_collapseAux (a :: rest) false c0 hgl hns
        rw [hps, hcl] at hc
        simp only [Option.some.injEq] at hc
        rw [← hc]
        exact hns
  show pyStrip (collapseAux false (pyStrip l)) = collapseAux false (pyStrip l)
  rw [show pyStrip (collapseAux false (pyStrip l)) =
      List.rdropWhile isSpace
        (List.dropWhile isSpace (collapseAux false (pyStrip l))) from rfl]
  rw [dropWhile_eq_self_of_head? isSpace _ hhead,
    rdropWhile_eq_self_of_getLast? isSpace _ hlast]

theorem forall_dropWhile_iff (p : Char → Bool) (l : List Char) :
    (∀ x ∈ l.dropWhile p, p x = true) ↔ (∀ x ∈ l, p x = true) := by
  induction l with
  | nil => simp
  | cons a rest ih =>
    by_cases ha : p a
    · rw [List.dropWhile_cons, if_pos ha]
      simp only [List.mem_cons]
      constructor
      · intro h x hx
        rcases hx with hx | hx
        · rw [hx]; exact ha
        · exact ih.mp h x hx
      · intro h x hx
        exact ih.mpr (fun y hy => h y (Or.inr hy)) x hx
    · rw [List.dropWhile_cons, if_neg ha]

theorem clean_text_none_iff (s : String) :
    clean_text (some s) = none ↔ s.data.all isSpace = true := by
  have hiff1 : cleanList s.data = [] ↔ pyStrip s.data = [] := by
    rw [cleanList_eq_collapse]
    constructor
    · intro h
      cases hps : pyStrip s.data with
      | nil => rfl
      | cons a rest =>
        rw [hps] at h
        exact absurd h (collapseAux_false_ne_nil a rest)
    · intro h
      rw [h]
      rfl
  have hiff2 : pyStrip s.data = [] ↔ s.data.all isSpace = true := by
    unfold pyStrip
    rw [List.rdropWhile_eq_nil_iff, List.all_eq_true]
    exact forall_dropWhile_iff isSpace s.data
  rw [clean_text_some]
  by_cases hnil : s.data = []
  · simp [hnil]
  · rw [if_neg hnil]
    by_cases hcl : cleanList s.data = []
    · simp only [hcl, if_pos]
      simp [hiff1.mp hcl, ← hiff2]
    · rw [if_neg hcl]
      simp only [reduceCtorEq, false_iff]
      rw [← hiff2]
      intro h
      exact hcl (hiff1.mpr h)

theorem clean_text_some_shape (x : Option String) (r : String)
    (h : clean_text x = some r) :
    r.data ≠ [] ∧ pyStrip r.data = r.data ∧ noDoubleWS r.data = true ∧
      wsOnlySpace r.data = true := by
  cases x with
  | none => simp [clean_text] at h
  | some s =>
    rw [clean_text_some] at h
    by_cases hnil : s.data = []
    · rw [if_pos hnil] at h
      simp at h
    · rw [if_neg hnil] at h
      by_cases hcl : cleanList s.data = []
      · rw [if_pos hcl] at h
        simp at h
      · rw [if_neg hcl] at h
        simp only [Option.some.injEq] at h
        have hr : r.data = cleanList s.data := by
          rw [← h]
        obtain ⟨h1, h2, h3⟩ := cleanList_props s.data
        rw [cleanList_eq_collapse] at hr
        refine ⟨?_, ?_, ?_, ?_⟩
        · rw [hr, ← cleanList_eq_collapse]
          exact hcl
        · rw [hr, ← cleanList_eq_collapse]
          exact h3
        · rw [hr]
          exact collapseAux_noDoubleWS _ false
        · rw [hr]
          exact collapseAux_wsOnlySpace _ false

theorem clean_text_idem (x : Option String) :
    clean_text (clean_text x) = clean_text x := by
  cases hx : clean_text x with
  | none => rfl
  | some r =>
    obtain ⟨hne, hstrip, hnd, hws⟩ := clean_text_some_shape x r hx
    show clean_text (some r) = some r
    rw [clean_text_some, if_neg hne]
    have hfix : cleanList r.data = r.data := by
      rw [cleanList_eq_collapse, hstrip]
      exact (collapseAux_fix r.data hnd hws).1
    rw [hfix, if_neg hne]


/-- C10: `DataProcessor.clean_text` is a total function, it is idempotent,
it returns `None` exactly when the input is absent or consists only of
whitespace, and every non-`None` result is a non-empty string with no
leading or trailing whitespace and no run of two or more consecutive
whitespace characters. -/
theorem clean_text_contract :
    (∀ x, clean_text (clean_text x) = clean_text x) ∧
    (∀ x, clean_text x = none ↔
      (x = none ∨ ∃ s, x = some s ∧ s.data.all isSpace = true)) ∧
    (∀ x r, clean_text x = some r →
      r.data ≠ [] ∧ pyStrip r.data = r.data ∧ noDoubleWS r.data = true) := by
  refine ⟨clean_text_idem, ?_, ?_⟩
  · intro x
    cases x with
    | none => simp [clean_text]
    | some s =>
      rw [clean_text_none_iff]
      constructor
      · intro h
        exact Or.inr ⟨s, rfl, h⟩
      · rintro (h | ⟨s2, hs2, h⟩)
        · simp at h
        · rw [Option.some.injEq] at hs2
          rw [hs2]
          exact h
  · intro x r h
    obtain ⟨h1, h2, h3, _⟩ := clean_text_some_shape x r h
    exact ⟨h1, h2, h3⟩

/-- Witness for `clean_text_contract` at the concrete input `" a  b "`,
whose cleaned form is `"a b"`. -/
theorem clean_text_contract_witness :
    ("a b" : String).data ≠ [] ∧
      pyStrip ("a b" : String).data = ("a b" : String).data ∧
      noDoubleWS ("a b" : String).data = true :=
  clean_text_contract.2.2 (some " a  b ") "a b" (by decide)

/-- A short (or absent) title always makes `build_dataset` raise
`ValueError`, whatever the other fields are: `validate_title` re-cleans
the already-cleaned title (idempotence), finds it shorter than 3
characters, and the title check precedes the URL check. -/
theorem build_dataset_short_title_raises (sha : String → String)
    (title url desc : Option String) (tags : List String) (src : String)
    (cj : Option String)
    (hshort : ∀ c, clean_text title = some c → c.length < 3) :
    build_dataset sha title url desc tags src cj =
      BuildResult.raised
        (String.append "Invalid title: " ((clean_text title).getD "None")) := by
  have hvt : validate_title (clean_text title) = false := by
    cases hct : clean_text title with
    | none => rfl
    | some c =>
      have hlen : c.length < 3 := hshort c hct
      have hid : clean_text (some c) = some c := by
        have h2 := clean_text_idem title
        rw [hct] at h2
        exact h2
      show validate_title (some c) = false
      by_cases hcd : c.data = []
      · simp [validate_title, hcd]
      · simp [validate_title, hcd, hid]
        omega
  simp only [build_dataset]
  rw [if_pos hvt]

/-- C4 counterexample: a candidate whose title cleans to `"ab"` (length
2 < 3) with a perfectly valid description and URL is rejected, but the
rejection is NOT returned as a value: `build_dataset` raises `ValueError`
(the `raised` constructor models the Python `raise`), which escapes the
normalizer into its traversal-side caller. -/
theorem invalid_title_raises_cex :
    build_dataset id (some "ab") (some "http://x.test/d.csv")
      (some "a valid description") [] "S" none
      = BuildResult.raised "Invalid title: ab" := by decide

/-- C4 amended: a candidate whose title is absent or cleans to fewer than
3 characters is always rejected by the normalizer, regardless of the
validity of its description, URL or tags — but the rejection is raised as
a `ValueError` from `build_dataset` (it does cross the
extraction/traversal boundary); the traversal's `parse_dataset` catches it
and reports it through the error callback, incrementing the error counter
and reporting no record, so it propagates no further. -/
theorem invalid_title_rejected_via_raise :
    (∀ (sha : String → String) (title url desc : Option String)
        (tags : List String) (src : String) (cj : Option String),
      (∀ c, clean_text title = some c → c.length < 3) →
      ∃ m, build_dataset sha title url desc tags src cj
        = BuildResult.raised m) ∧
    (∀ (sha : String → String) (src jobId : String) (st : SpiderState)
        (p : Page) (raw : Option String) (t : String),
      p.title = clean_text raw → p.title = some t → t.length < 3 →
      parse_dataset sha src jobId st p =
        { st with
            stats.pages_crawled := st.stats.pages_crawled + 1,
            stats.errors := st.stats.errors + 1 }) := by
  constructor
  · intro sha title url desc tags src cj hshort
    exact ⟨_, build_dataset_short_title_raises sha title url desc tags src cj hshort⟩
  · intro sha src jobId st p raw t hclean hsome hshort
    have hct : clean_text raw = some t := by
      rw [← hclean]
      exact hsome
    have hid : clean_text (some t) = some t := by
      have h2 := clean_text_idem raw
      rw [hct] at h2
      exact h2
    have htne : t.data ≠ [] := (clean_text_some_shape raw t hct).1
    have hraise := build_dataset_short_title_raises sha (some t) (some p.url)
      p.description p.tags src (some jobId)
      (fun c hc => by
        rw [hid] at hc
        rw [Option.some.injEq] at hc
        rw [← hc]
        exact hshort)
    simp only [parse_dataset, hsome]
    rw [if_neg htne, hraise]

/-- Sample spider state for the C4 witness. -/
def c4st : SpiderState := { stats := initStats, reported := [] }

/-- Sample page with a too-short extracted title for the C4 witness. -/
def c4page : Page :=
  { url := "http://x.test/item/1", title := some "ab",
    description := none, tags := [] }

/-- Witness for `invalid_title_rejected_via_raise` at the concrete title
`"ab"`. -/
theorem invalid_title_rejected_via_raise_witness :
    (∃ m, build_dataset id (some "ab") (some "http://x.test/d.csv")
      (some "ok description") [] "S" none = BuildResult.raised m) ∧
    parse_dataset id "S" "job-1" c4st c4page =
      { c4st with
          stats.pages_crawled := c4st.stats.pages_crawled + 1,
          stats.errors := c4st.stats.errors + 1 } :=
  ⟨invalid_title_rejected_via_raise.1 id (some "ab") (some "http://x.test/d.csv")
      (some "ok description") [] "S" none
      (fun c hc => by
        rw [show clean_text (some "ab") = some "ab" from rfl] at hc
        rw [Option.some.injEq] at hc
        rw [← hc]
        decide),
   invalid_title_rejected_via_raise.2 id "S" "job-1" c4st c4page
      (some "ab") "ab" (by decide) rfl (by decide)⟩

end Crawler
